import Mathlib

/-!
Shallow embedding of the FossFLOW MCP diagram core
(`packages/fossflow-mcp/src`): the canonical diagram data model, the
compact/full format converter (`formatConverter.ts`), the immutable
state manager (`DiagramState.ts`), and the character-grid write
discipline of the ASCII renderer (`asciiRenderer.ts`).

Modelling conventions:
* JavaScript strings are modelled as Lean `String` (sequences of
  characters); `s.slice(0, n)` is `jsSlice0 s n` and `s.length` is
  `String.length`.
* JavaScript numbers appearing in the embedded code paths are integers
  (tile coordinates, indices, label heights); they are modelled as `Int`
  (with `Nat` for list indices produced by iteration).
* Optional fields (`field?: T`) are modelled as `Option T`; the
  JavaScript falsy test `!s` on an optional string is `none` or `some ""`.
* `uuidv4()` calls are modelled by explicit generator parameters: the
  generated identifiers are inputs of the embedded operations.
* All embedded functions are total, mirroring the fact that the
  embedded code paths contain no `throw`; partiality of `views[0]` on a
  model with zero views (where the TypeScript would fault) is handled by
  hypotheses `m.views ≠ []`, which the `DiagramState` constructor
  guarantees (it inserts a default view).
-/

namespace FossFlow

/-- JavaScript `s.slice(0, n)` (take the first `n` characters). -/
def jsSlice0 (s : String) (n : Nat) : String := String.mk (s.data.take n)

/-- JavaScript `s || undefined` on a string: `""` is falsy. -/
def emptyToNone (s : String) : Option String := if s = "" then none else some s

theorem jsSlice0_of_length_le (s : String) (n : Nat) (h : s.length ≤ n) :
    jsSlice0 s n = s := by
  unfold jsSlice0
  rw [List.take_of_length_le h]

theorem emptyToNone_getD (s : String) : (emptyToNone s).getD "" = s := by
  unfold emptyToNone
  by_cases h : s = "" <;> simp [h]

/-! ### Injectivity of `Nat.repr`

The converter's synthetic identifiers are the strings `item-${index}`;
recovering indices from identifiers in the round-trip proof requires
that decimal printing of naturals is injective. -/

/-- Value of a list of decimal digit characters, most significant first. -/
def digitsVal (l : List Char) : Nat := l.foldl (fun a c => 10 * a + (c.toNat - 48)) 0

theorem digitsVal_foldl (l : List Char) (a : Nat) :
    l.foldl (fun a c => 10 * a + (c.toNat - 48)) a = a * 10 ^ l.length + digitsVal l := by
  induction l generalizing a with
  | nil => simp [digitsVal]
  | cons c l ih =>
    simp only [digitsVal, List.foldl_cons, List.length_cons]
    rw [ih, ih]
    ring

theorem digitChar_toNat (d : Nat) (h : d < 10) : (Nat.digitChar d).toNat - 48 = d := by
  interval_cases d <;> rfl

theorem toDigitsCore_val (fuel : Nat) :
    ∀ (n : Nat) (acc : List Char), n < fuel →
      digitsVal (Nat.toDigitsCore 10 fuel n acc) = n * 10 ^ acc.length + digitsVal acc := by
  induction fuel with
  | zero => intro n acc h; omega
  | succ f ih =>
    intro n acc h
    have hdval : digitsVal (Nat.digitChar (n % 10) :: acc)
        = (n % 10) * 10 ^ acc.length + digitsVal acc := by
      simp only [digitsVal, List.foldl_cons]
      rw [digitsVal_foldl]
      rw [show (10 * 0 + ((Nat.digitChar (n % 10)).toNat - 48))
            = (Nat.digitChar (n % 10)).toNat - 48 from by omega]
      rw [digitChar_toNat (n % 10) (Nat.mod_lt n (by omega))]
      rfl
    by_cases hq : n / 10 = 0
    · have hn : n < 10 := by omega
      have hstep : Nat.toDigitsCore 10 (f + 1) n acc = Nat.digitChar (n % 10) :: acc := by
        simp [Nat.toDigitsCore, hq]
      rw [hstep, hdval, Nat.mod_eq_of_lt hn]
    · have hstep : Nat.toDigitsCore 10 (f + 1) n acc
          = Nat.toDigitsCore 10 f (n / 10) (Nat.digitChar (n % 10) :: acc) := by
        simp [Nat.toDigitsCore, hq]
      rw [hstep]
      have hlt : n / 10 < f := by
        have h1 : n / 10 < n := Nat.div_lt_self (by omega) (by omega)
        omega
      rw [ih (n / 10) (Nat.digitChar (n % 10) :: acc) hlt, hdval]
      simp only [List.length_cons]
      calc n / 10 * 10 ^ (acc.length + 1) + (n % 10 * 10 ^ acc.length + digitsVal acc)
          = (10 * (n / 10) + n % 10) * 10 ^ acc.length + digitsVal acc := by ring
        _ = n * 10 ^ acc.length + digitsVal acc := by rw [Nat.div_add_mod]

theorem digitsVal_toDigits (n : Nat) : digitsVal (Nat.toDigits 10 n) = n := by
  have h := toDigitsCore_val (n + 1) n [] (Nat.lt_succ_self n)
  simpa [Nat.toDigits, digitsVal] using h

theorem natRepr_inj {a b : Nat} (h : Nat.repr a = Nat.repr b) : a = b := by
  have hdata : (Nat.toDigits 10 a) = (Nat.toDigits 10 b) := by
    have := congrArg String.data h
    simpa [Nat.repr, List.asString] using this
  have := congrArg digitsVal hdata
  rwa [digitsVal_toDigits, digitsVal_toDigits] at this

/-! ### List helpers mirroring the JavaScript iteration patterns -/

/-- JavaScript `array.map((x, index) => f(index, x))`, starting the index at `s`. -/
def mapIdxFrom (f : Nat → α → β) : Nat → List α → List β
  | _, [] => []
  | k, a :: as => f k a :: mapIdxFrom f (k + 1) as

/-- JavaScript `array.map((x, index) => f(index, x))`. -/
def mapIdx (f : Nat → α → β) (l : List α) : List β := mapIdxFrom f 0 l

/-- Mutation of the first element matching `p` inside an immer draft
(`const v = list.find(...); if (v) mutate(v)`). -/
def updateFirst (p : α → Bool) (f : α → α) : List α → List α
  | [] => []
  | a :: as => if p a then f a :: as else a :: updateFirst p f as

/-- Removal of the first element matching `p`
(`const k = list.findIndex(...); if (k !== -1) list.splice(k, 1)`). -/
def eraseFirst (p : α → Bool) : List α → List α
  | [] => []
  | a :: as => if p a then as else a :: eraseFirst p as

/-- Lookup in a JavaScript `Map` built by inserting the pairs in list
order: a later insertion of the same key overrides an earlier one. -/
def lookupLast (l : List (String × Nat)) (key : String) : Option Nat :=
  match l with
  | [] => none
  | (k, v) :: rest =>
    match lookupLast rest key with
    | some r => some r
    | none => if key = k then some v else none

/-- The integers of a JavaScript loop `for (let x = lo; x < hi; x++)`. -/
def intRange (lo hi : Int) : List Int := (List.range (hi - lo).toNat).map (fun k => lo + (k : Int))

theorem mapIdxFrom_length (f : Nat → α → β) (s : Nat) (l : List α) :
    (mapIdxFrom f s l).length = l.length := by
  induction l generalizing s with
  | nil => rfl
  | cons a as ih => simp [mapIdxFrom, ih]

theorem mapIdxFrom_getElem? (f : Nat → α → β) (s : Nat) (l : List α) (k : Nat) :
    (mapIdxFrom f s l)[k]? = (l[k]?).map (f (s + k)) := by
  induction l generalizing s k with
  | nil => simp [mapIdxFrom]
  | cons a as ih =>
    cases k with
    | zero => simp [mapIdxFrom]
    | succ k =>
      simp only [mapIdxFrom, List.getElem?_cons_succ, ih (s + 1) k]
      rw [show s + 1 + k = s + (k + 1) from by omega]

theorem mapIdxFrom_mapIdxFrom (f : Nat → β → γ) (g : Nat → α → β) (s : Nat) (l : List α) :
    mapIdxFrom f s (mapIdxFrom g s l) = mapIdxFrom (fun k a => f k (g k a)) s l := by
  induction l generalizing s with
  | nil => rfl
  | cons a as ih => simp [mapIdxFrom, ih]

theorem mem_mapIdxFrom {f : Nat → α → β} {s : Nat} {l : List α} {b : β}
    (h : b ∈ mapIdxFrom f s l) : ∃ k a, a ∈ l ∧ b = f k a := by
  induction l generalizing s with
  | nil => simp [mapIdxFrom] at h
  | cons a as ih =>
    simp only [mapIdxFrom, List.mem_cons] at h
    rcases h with h | h
    · exact ⟨s, a, List.mem_cons_self a as, h⟩
    · obtain ⟨k, a', ha, hb⟩ := ih h
      exact ⟨k, a', List.mem_cons_of_mem a ha, hb⟩

theorem updateFirst_length (p : α → Bool) (f : α → α) (l : List α) :
    (updateFirst p f l).length = l.length := by
  induction l with
  | nil => rfl
  | cons a as ih =>
    by_cases h : p a <;> simp [updateFirst, h, ih]

theorem updateFirst_of_forall_fix (p : α → Bool) (f : α → α) (l : List α)
    (h : ∀ a ∈ l, p a = true → f a = a) : updateFirst p f l = l := by
  induction l with
  | nil => rfl
  | cons a as ih =>
    by_cases hp : p a
    · simp [updateFirst, hp, h a (List.mem_cons_self a as) hp]
    · simp only [updateFirst, if_neg hp]
      rw [ih (fun b hb hpb => h b (List.mem_cons_of_mem a hb) hpb)]

theorem updateFirst_of_forall_not (p : α → Bool) (f : α → α) (l : List α)
    (h : ∀ a ∈ l, p a = false) : updateFirst p f l = l :=
  updateFirst_of_forall_fix p f l (fun a ha hpa => by rw [h a ha] at hpa; cases hpa)

theorem mem_updateFirst_of_not (p : α → Bool) (f : α → α) (l : List α) (a : α)
    (ha : a ∈ l) (hp : p a = false) : a ∈ updateFirst p f l := by
  induction l with
  | nil => cases ha
  | cons b bs ih =>
    rcases List.mem_cons.mp ha with rfl | hmem
    · simp [updateFirst, hp]
    · by_cases hb : p b
      · simp [updateFirst, hb, List.mem_cons_of_mem _ hmem]
      · simp only [updateFirst, if_neg hb]
        exact List.mem_cons_of_mem b (ih hmem)

theorem find?_updateFirst (p : α → Bool) (f : α → α) (l : List α)
    (hpres : ∀ a, p (f a) = p a) :
    (updateFirst p f l).find? p = (l.find? p).map f := by
  induction l with
  | nil => rfl
  | cons a as ih =>
    by_cases hp : p a
    · simp [updateFirst, hp, List.find?, hpres a]
    · simp only [updateFirst, if_neg hp, List.find?]
      rw [Bool.of_not_eq_true hp]
      exact ih

theorem find?_updateFirst_not (p q : α → Bool) (f : α → α) (l : List α)
    (hdisj : ∀ a, q a = true → p a = false) (hpres : ∀ a, q (f a) = q a) :
    (updateFirst p f l).find? q = l.find? q := by
  induction l with
  | nil => rfl
  | cons a as ih =>
    by_cases hp : p a
    · have hq : q a = false := by
        cases hqa : q a
        · rfl
        · rw [hdisj a hqa] at hp; cases hp
      have hqf : q (f a) = false := by rw [hpres a]; exact hq
      simp [updateFirst, hp, List.find?, hq, hqf]
    · simp only [updateFirst, if_neg hp, List.find?]
      cases hqa : q a
      · exact ih
      · rfl

theorem updateFirst_updateFirst (p : α → Bool) (f : α → α) (l : List α)
    (hpres : ∀ a, p (f a) = p a) (hidem : ∀ a ∈ l, p a = true → f (f a) = f a) :
    updateFirst p f (updateFirst p f l) = updateFirst p f l := by
  induction l with
  | nil => rfl
  | cons a as ih =>
    by_cases hp : p a
    · simp only [updateFirst, if_pos hp]
      have hpf : p (f a) = true := by rw [hpres a]; exact hp
      simp only [updateFirst, if_pos hpf, hidem a (List.mem_cons_self a as) hp]
    · simp only [updateFirst, if_neg hp]
      rw [ih (fun b hb hpb => hidem b (List.mem_cons_of_mem a hb) hpb)]

theorem eraseFirst_of_forall_not (p : α → Bool) (l : List α)
    (h : ∀ a ∈ l, p a = false) : eraseFirst p l = l := by
  induction l with
  | nil => rfl
  | cons a as ih =>
    simp only [eraseFirst, h a (List.mem_cons_self a as)]
    rw [if_neg (by simp), ih (fun b hb => h b (List.mem_cons_of_mem a hb))]

theorem eraseFirst_eq_filter (p : α → Bool) (l : List α)
    (h : l.countP p ≤ 1) : eraseFirst p l = l.filter (fun a => !(p a)) := by
  induction l with
  | nil => rfl
  | cons a as ih =>
    by_cases hp : p a
    · have hcount : as.countP p = 0 := by
        rw [List.countP_cons_of_pos p as hp] at h
        omega
      have hall : ∀ b ∈ as, p b = false := by
        intro b hb
        have := List.countP_eq_zero.mp hcount b hb
        simpa using this
      have hfilter : as.filter (fun a => !(p a)) = as :=
        List.filter_eq_self.mpr (fun b hb => by simp [hall b hb])
      simp [eraseFirst, hp, List.filter_cons, hfilter]
    · have hcount : as.countP p ≤ 1 := by
        rw [List.countP_cons_of_neg p as hp] at h
        exact h
      simp [eraseFirst, hp, List.filter_cons, ih hcount]

/-! ### Data model (`types.ts`) -/

/-- Tile coordinates (`Coords`). -/
structure Coords where
  x : Int
  y : Int
deriving DecidableEq

/-- `Icon` catalog entry. -/
structure Icon where
  id : String
  name : String
  url : String
  collection : Option String := none
  isIsometric : Option Bool := none
  scale : Option Int := none
deriving DecidableEq

/-- `Color` palette entry. -/
structure Color where
  id : String
  value : String
deriving DecidableEq

/-- `ModelItem`: a diagram entity independent of any view. -/
structure ModelItem where
  id : String
  name : String
  description : Option String := none
  icon : Option String := none
deriving DecidableEq

/-- `ViewItem`: the placement of a `ModelItem` within one view. -/
structure ViewItem where
  id : String
  tile : Coords
  labelHeight : Option Int := none
deriving DecidableEq

/-- `ConnectorLabel`. -/
structure ConnectorLabel where
  id : String
  text : String
  position : Int
  height : Option Int := none
  line : Option String := none
  showLine : Option Bool := none
deriving DecidableEq

/-- The `ref` record of a `ConnectorAnchor` (all fields optional). -/
structure AnchorRef where
  item : Option String := none
  anchor : Option String := none
  tile : Option Coords := none
deriving DecidableEq

/-- `ConnectorAnchor`: an endpoint reference of a connector. -/
structure ConnectorAnchor where
  id : String
  ref : AnchorRef
deriving DecidableEq

/-- `ConnectorStyle`. -/
inductive ConnectorStyle where
  | SOLID | DOTTED | DASHED
deriving DecidableEq

/-- `ConnectorLineType`. -/
inductive ConnectorLineType where
  | SINGLE | DOUBLE | DOUBLE_WITH_CIRCLE
deriving DecidableEq

/-- `Connector`. -/
structure Connector where
  id : String
  description : Option String := none
  startLabel : Option String := none
  endLabel : Option String := none
  startLabelHeight : Option Int := none
  centerLabelHeight : Option Int := none
  endLabelHeight : Option Int := none
  labels : Option (List ConnectorLabel) := none
  color : Option String := none
  customColor : Option String := none
  width : Option Int := none
  style : Option ConnectorStyle := none
  lineType : Option ConnectorLineType := none
  showArrow : Option Bool := none
  anchors : List ConnectorAnchor
deriving DecidableEq

/-- `Rectangle` (`from`/`to` are reserved words in Lean, hence `from_`/`to_`). -/
structure Rectangle where
  id : String
  color : Option String := none
  customColor : Option String := none
  from_ : Coords
  to_ : Coords
deriving DecidableEq

/-- `TextBox`. -/
structure TextBox where
  id : String
  tile : Coords
  content : String
  fontSize : Option Int := none
  orientation : Option String := none
deriving DecidableEq

/-- `View`: `connectors`, `rectangles` and `textBoxes` are optional in
the TypeScript interface (may be `undefined`). -/
structure View where
  id : String
  name : String
  description : Option String := none
  lastUpdated : Option String := none
  items : List ViewItem
  connectors : Option (List Connector) := none
  rectangles : Option (List Rectangle) := none
  textBoxes : Option (List TextBox) := none
deriving DecidableEq

/-- `Model`: the canonical (full) diagram form. -/
structure Model where
  version : Option String := none
  title : String
  description : Option String := none
  items : List ModelItem
  views : List View
  icons : List Icon
  colors : List Color
deriving DecidableEq

/-- Compact-format metadata (`_` field; `_` is not a Lean identifier). -/
structure CompactMeta where
  f : String
  v : String
deriving DecidableEq

/-- One view tuple `[positions, connections]` of the compact form:
`positions` are `[itemIndex, x, y]` triples, `connections` are
`[fromIndex, toIndex]` pairs. -/
structure CompactView where
  positions : List (Int × Int × Int)
  connections : List (Int × Int)
deriving DecidableEq

/-- `CompactDiagram`: the position-addressed compact form. -/
structure CompactDiagram where
  t : String
  i : List (String × String × String)
  v : List CompactView
  meta : CompactMeta
deriving DecidableEq

/-- `DEFAULT_LABEL_HEIGHT`. -/
def DEFAULT_LABEL_HEIGHT : Int := 80

/-- `DEFAULT_COLOR`. -/
def DEFAULT_COLOR : Color := { id := "__DEFAULT__", value := "#6366f1" }

/-! ### Format converter (`formatConverter.ts`) -/

/-- The synthetic identifier `` `item-${index}` `` of the compact form. -/
def itemIdFor (idx : Int) : String := "item-" ++ toString idx

/-- The ModelItem generated by `toFull` for the compact item at the
given array position: `i[N]` becomes `item-{N}`; an empty icon or
description string (falsy) becomes `undefined`. -/
def itemFromCompact (index : Nat) (item : String × String × String) : ModelItem :=
  { id := itemIdFor (index : Int)
    name := item.1
    icon := emptyToNone item.2.1
    description := emptyToNone item.2.2 }

/-- The ViewItem generated by `toFull` for a compact positions triple
`[itemIndex, x, y]`. -/
def viewItemFromPos (pos : Int × Int × Int) : ViewItem :=
  { id := itemIdFor pos.1
    tile := { x := pos.2.1, y := pos.2.2 }
    labelHeight := some DEFAULT_LABEL_HEIGHT }

/-- The two-anchor Connector generated by `toFull` for a compact
connections pair `[fromIndex, toIndex]`, with SOLID/SINGLE/arrow
defaults. -/
def connectorFromConn (uuid : Nat → Nat → Nat → String)
    (viewIndex connIndex : Nat) (conn : Int × Int) : Connector :=
  { id := "connector-" ++ toString viewIndex ++ "-" ++ toString connIndex
    anchors := [
      { id := uuid viewIndex connIndex 0
        ref := { item := some (itemIdFor conn.1), anchor := some "center" } },
      { id := uuid viewIndex connIndex 1
        ref := { item := some (itemIdFor conn.2), anchor := some "center" } }]
    style := some ConnectorStyle.SOLID
    lineType := some ConnectorLineType.SINGLE
    showArrow := some true }

/-- The View generated by `toFull` for one compact view tuple. -/
def viewFromCompact (uuid : Nat → Nat → Nat → String)
    (viewIndex : Nat) (viewData : CompactView) : View :=
  { id := "view-" ++ toString viewIndex
    name := if viewIndex = 0 then "Main View" else "View " ++ toString (viewIndex + 1)
    items := viewData.positions.map viewItemFromPos
    connectors := some (mapIdx (connectorFromConn uuid viewIndex) viewData.connections)
    rectangles := some []
    textBoxes := some [] }

/-- `toFull(compact)`: convert the compact format to the full format.
The `uuid` parameter models the `uuidv4()` generator used for the two
anchor identifiers of each connector: `uuid viewIndex connIndex slot`. -/
def toFull (uuid : Nat → Nat → Nat → String) (compact : CompactDiagram) : Model :=
  { title := compact.t
    version := some compact.meta.v
    items := mapIdx itemFromCompact compact.i
    views := mapIdx (viewFromCompact uuid) compact.v
    icons := []
    colors := [DEFAULT_COLOR] }

/-- The `itemIndexMap` of `toCompact`: a JavaScript `Map` from item
identifier to position in the current `items` array. -/
def itemIndexMap (items : List ModelItem) (key : String) : Option Nat :=
  lookupLast (mapIdx (fun index item => (item.id, index)) items) key

/-- Encoding of one connector as a `[fromIndex, toIndex]` pair inside
`toCompact` (`null` results are filtered out, i.e. the connector is
dropped): drops connectors with fewer than two anchors, with a missing
or empty (falsy) endpoint item id, or with an endpoint id that is not a
key of the item index map. -/
def encodeConn (items : List ModelItem) (connector : Connector) : Option (Int × Int) :=
  if connector.anchors.length < 2 then none
  else
    match connector.anchors.head?, connector.anchors.getLast? with
    | some fromAnchor, some toAnchor =>
      match fromAnchor.ref.item, toAnchor.ref.item with
      | some fromItemId, some toItemId =>
        if fromItemId = "" ∨ toItemId = "" then none
        else
          match itemIndexMap items fromItemId, itemIndexMap items toItemId with
          | some fromIndex, some toIndex => some ((fromIndex : Int), (toIndex : Int))
          | _, _ => none
      | _, _ => none
    | _, _ => none

/-- The compact item triple emitted by `toCompact` for one ModelItem:
`[name.slice(0,30), icon || "", (description || "").slice(0,100)]`. -/
def compactItem (item : ModelItem) : String × String × String :=
  (jsSlice0 item.name 30, item.icon.getD "", jsSlice0 (item.description.getD "") 100)

/-- The compact view tuple emitted by `toCompact` for one View:
positions fall back to item index 0 for an unmapped ViewItem id,
connections drop connectors with unmapped endpoints. -/
def compactViewFromView (items : List ModelItem) (view : View) : CompactView :=
  { positions := view.items.map (fun viewItem =>
      (((itemIndexMap items viewItem.id).getD 0 : Int),
        viewItem.tile.x, viewItem.tile.y))
    connections := (view.connectors.getD []).filterMap (encodeConn items) }

/-- `toCompact(full)`: convert the full format to the compact format. -/
def toCompact (full : Model) : CompactDiagram :=
  let views : List CompactView := full.views.map (compactViewFromView full.items)
  let views : List CompactView := if views.length = 0 then views ++ [⟨[], []⟩] else views
  { t := jsSlice0 full.title 40
    i := full.items.map compactItem
    v := views
    meta := { f := "compact", v := "1.0" } }

/-- The error list produced by `validateCompact`. Checks that cannot
fail on a well-typed `CompactDiagram` value (field presence, `typeof`
and `Array.isArray` tests, the 3-element item tuple shape, the
2-element view tuple shape) are omitted, since the embedding quantifies
over well-typed compact values. -/
def validateCompactErrors (diagram : CompactDiagram) : List String :=
  (if diagram.t.length > 40 then ["Title (t) exceeds 40 characters"] else [])
  ++ (mapIdx (fun index item =>
        (if item.1.length > 30
          then ["Item " ++ toString index ++ " name exceeds 30 characters"] else [])
        ++ (if item.2.2.length > 100
          then ["Item " ++ toString index ++ " description exceeds 100 characters"] else []))
      diagram.i).flatten
  ++ (if diagram.meta.f = "compact" then []
      else ["Metadata format (_.f) must be \"compact\""])

/-- `validateCompact(diagram).valid` for a well-typed compact value. -/
def validateCompactValid (diagram : CompactDiagram) : Bool :=
  validateCompactErrors diagram = []

/-! ### Diagram state operations (`DiagramState.ts`)

Each operation is modelled as a function of the canonical `Model` it
wraps; the fresh identifiers produced by `uuidv4()` are explicit
parameters. `new DiagramState(newModel)` re-normalizes the produced
model, which is the identity whenever the model already has at least
one view; all operations below preserve the number of views, so a
state built by the constructor (which guarantees ≥ 1 view) keeps that
invariant. Reading `this.primaryView.id` on a model with zero views
would fault in the TypeScript; `primaryViewId` totalizes that read
with `""`, and the theorems assume `m.views ≠ []`. -/

/-- `this.primaryView.id` (the first view's identifier). -/
def primaryViewId (m : Model) : String := ((m.views.head?).map View.id).getD ""

/-- `params.viewId || this.primaryView.id`: JavaScript `||` falls back
on a missing (`undefined`) or empty (falsy) view identifier. -/
def resolveViewId (m : Model) (viewId : Option String) : String :=
  match viewId with
  | some v => if v = "" then primaryViewId m else v
  | none => primaryViewId m

/-- `getView(viewId?)`: the view with the given id, or the primary view
when the id is falsy or matches no view. `none` only when the model has
no views at all (where the TypeScript returns `undefined`). -/
def getView (m : Model) (viewId : Option String) : Option View :=
  match viewId with
  | none => m.views.head?
  | some vid =>
    if vid = "" then m.views.head?
    else
      match m.views.find? (fun v => v.id == vid) with
      | some v => some v
      | none => m.views.head?

/-- Parameters of `addNode`. -/
structure AddNodeParams where
  name : String
  icon : Option String := none
  description : Option String := none
  x : Int
  y : Int
  labelHeight : Option Int := none
  viewId : Option String := none
deriving DecidableEq

/-- `addNode(params)`: append a `ModelItem` with the fresh identifier
`nodeId`, and append a `ViewItem` to the resolved view if that view
exists. -/
def addNode (m : Model) (nodeId : String) (params : AddNodeParams) : Model :=
  let viewId := resolveViewId m params.viewId
  let modelItem : ModelItem :=
    { id := nodeId, name := params.name, icon := params.icon
      description := params.description }
  let items := m.items ++ [modelItem]
  let views := updateFirst (fun v => v.id == viewId)
    (fun view =>
      let viewItem : ViewItem :=
        { id := nodeId, tile := { x := params.x, y := params.y }
          labelHeight := some (params.labelHeight.getD DEFAULT_LABEL_HEIGHT) }
      { view with items := view.items ++ [viewItem] }) m.views
  { m with items := items, views := views }

/-- The view mutation performed by `removeNode` inside the immer draft
on the resolved view: remove the first `ViewItem` with the given id and
filter out every connector having any anchor whose
`ref.item === nodeId` (an absent `connectors` array stays absent). -/
def removeNodeFromView (nodeId : String) (view : View) : View :=
  { view with
      items := eraseFirst (fun i => i.id == nodeId) view.items
      connectors := view.connectors.map (fun cs =>
        cs.filter (fun connector =>
          !(connector.anchors.any (fun anchor => anchor.ref.item == some nodeId)))) }

/-- `removeNode(nodeId, viewId?)`: remove the first `ModelItem` with
that id, remove the first `ViewItem` with that id from the resolved
view, and remove from that view every connector having any anchor whose
`ref.item === nodeId`. -/
def removeNode (m : Model) (nodeId : String) (viewId : Option String) : Model :=
  let targetViewId := resolveViewId m viewId
  let items := eraseFirst (fun i => i.id == nodeId) m.items
  let views := updateFirst (fun v => v.id == targetViewId)
    (removeNodeFromView nodeId) m.views
  { m with items := items, views := views }

/-- One row of the `listNodes` projection. -/
structure NodeInfo where
  id : String
  name : String
  icon : Option String := none
  description : Option String := none
  position : Option Coords := none
deriving DecidableEq

/-- `listNodes(viewId?)`: join every `ModelItem` with its placement in
the resolved view; `none` only when the model has no views (where the
TypeScript faults on `view.items`). -/
def listNodes (m : Model) (viewId : Option String) : Option (List NodeInfo) :=
  (getView m viewId).map (fun view =>
    m.items.map (fun item =>
      let viewItem := view.items.find? (fun vi => vi.id == item.id)
      { id := item.id, name := item.name, icon := item.icon
        description := item.description
        position := viewItem.map (fun vi => { x := vi.tile.x, y := vi.tile.y }) }))

/-- Parameters of `addConnector`. -/
structure AddConnectorParams where
  fromNodeId : String
  toNodeId : String
  style : Option ConnectorStyle := none
  lineType : Option ConnectorLineType := none
  color : Option String := none
  showArrow : Option Bool := none
  label : Option String := none
  viewId : Option String := none
deriving DecidableEq

/-- `addConnector(params)`: append a two-anchor connector to the
resolved view after verifying that both endpoints have a `ViewItem`
there; otherwise (or when the resolved view does not exist) leave the
model unchanged. `connectorId`, `a1`, `a2` model the `uuidv4()` calls. -/
def addConnector (m : Model) (connectorId a1 a2 : String)
    (params : AddConnectorParams) : Model :=
  let viewId := resolveViewId m params.viewId
  let views := updateFirst (fun v => v.id == viewId)
    (fun view =>
      if view.items.any (fun i => i.id == params.fromNodeId)
          && view.items.any (fun i => i.id == params.toNodeId) then
        let connector : Connector :=
          { id := connectorId
            anchors := [
              { id := a1, ref := { item := some params.fromNodeId, anchor := some "center" } },
              { id := a2, ref := { item := some params.toNodeId, anchor := some "center" } }]
            style := some (params.style.getD ConnectorStyle.SOLID)
            lineType := some (params.lineType.getD ConnectorLineType.SINGLE)
            color := params.color
            showArrow := some (params.showArrow.getD true)
            description := params.label }
        { view with connectors := some (view.connectors.getD [] ++ [connector]) }
      else view) m.views
  { m with views := views }

/-- One row of the `listConnectors` projection (`from`/`to` fields are
reserved words in Lean, hence `fromId`/`toId`). -/
structure ConnInfo where
  id : String
  fromId : String
  toId : String
  style : Option ConnectorStyle := none
  label : Option String := none
deriving DecidableEq

/-- `listConnectors(viewId?)`: project the resolved view's connectors;
`none` only when the model has no views. -/
def listConnectors (m : Model) (viewId : Option String) : Option (List ConnInfo) :=
  (getView m viewId).map (fun view =>
    (view.connectors.getD []).map (fun c =>
      { id := c.id
        fromId := ((c.anchors.head?).bind (fun a => a.ref.item)).getD ""
        toId := ((c.anchors.getLast?).bind (fun a => a.ref.item)).getD ""
        style := c.style
        label := c.description }))

/-! ### ASCII renderer write primitives (`asciiRenderer.ts`)

The character grid is a list of rows of characters; grid indices are
JavaScript numbers, modelled as `Int` with the same explicit bounds
checks as the source. -/

/-- `safeWrite(grid, y, x, char)`: write `ch` at row `y`, column `x`
only when the indices are in bounds and the current character is a
blank, a horizontal line `─` or a vertical line `│`; otherwise leave
the grid unchanged. -/
def safeWrite (grid : List (List Char)) (y x : Int) (ch : Char) : List (List Char) :=
  if 0 ≤ y ∧ y < (grid.length : Int) ∧ 0 ≤ x ∧ x < ((grid.getD y.toNat []).length : Int) then
    let row := grid.getD y.toNat []
    let current := row.getD x.toNat ' '
    if current = ' ' ∨ current = '─' ∨ current = '│' then
      grid.set y.toNat (row.set x.toNat ch)
    else grid
  else grid

/-- JavaScript `s.padStart(n)` (pad with blanks on the left). -/
def padStart (s : String) (n : Nat) : String :=
  String.mk (List.replicate (n - s.length) ' ' ++ s.data)

/-- JavaScript `s.padEnd(n)` (pad with blanks on the right). -/
def padEnd (s : String) (n : Nat) : String :=
  String.mk (s.data ++ List.replicate (n - s.length) ' ')

/-- `drawLine(grid, x1, y1, x2, y2, showArrow)`: Manhattan-route a
connector with a single bend at the horizontal midpoint, placing corner
glyphs at the two turns and an arrow glyph near the target. -/
def drawLine (grid : List (List Char)) (x1 y1 x2 y2 : Int) (showArrow : Bool) :
    List (List Char) :=
  let dx := x2 - x1
  let dy := y2 - y1
  let midX := x1 + Int.fdiv dx 2
  let g1 := (intRange (min x1 midX + 1) (max x1 midX)).foldl
    (fun g x => safeWrite g y1 x '─') grid
  let g2 := (intRange (min y1 y2 + 1) (max y1 y2)).foldl
    (fun g y => safeWrite g y midX '│') g1
  let g3 := (intRange (min midX x2 + 1) (max midX x2)).foldl
    (fun g x => safeWrite g y2 x '─') g2
  let g4 :=
    if dx ≠ 0 ∧ dy ≠ 0 then
      let corner1 := if dy > 0 then (if dx > 0 then '┐' else '┌')
        else (if dx > 0 then '┘' else '└')
      let g := safeWrite g3 y1 midX corner1
      let corner2 := if dy > 0 then (if dx > 0 then '└' else '┘')
        else (if dx > 0 then '┌' else '┐')
      safeWrite g y2 midX corner2
    else g3
  if showArrow then
    let arrowChar := if dx > 0 then '▶' else if dx < 0 then '◀'
      else if dy > 0 then '▼' else '▲'
    let arrowX := x2 + (if dx > 0 then -2 else if dx < 0 then 2 else 0)
    let arrowY := y2 + (if dy > 0 then -1 else if dy < 0 then 1 else 0)
    if dx ≠ 0 then safeWrite g4 y2 arrowX arrowChar
    else if dy ≠ 0 then safeWrite g4 arrowY x2 arrowChar
    else g4
  else g4

/-- `drawNodeBox(grid, cx, cy, name, icon)`: draw a bordered box
centered on `(cx, cy)`, sized to the longer of the name and icon
labels; every character is written through `safeWrite`. -/
def drawNodeBox (grid : List (List Char)) (cx cy : Int) (name icon : String) :
    List (List Char) :=
  let width : Nat := max name.length icon.length + 4
  let halfWidth : Int := (width : Int) / 2
  let startX : Int := max 0 (cx - halfWidth)
  let startY : Int := max 0 (cy - 1)
  if startY ≥ (grid.length : Int) ∨ startX ≥ (((grid.head?.map List.length).getD 0 : Nat) : Int) then
    grid
  else
    let g1 := safeWrite grid startY startX '┌'
    let g2 := (intRange 1 ((width : Int) - 1)).foldl
      (fun g i => safeWrite g startY (startX + i) '─') g1
    let g3 := safeWrite g2 startY (startX + (width : Int) - 1) '┐'
    let g4 := safeWrite g3 (startY + 1) startX '│'
    let paddedName := padEnd (padStart name ((width - 2 + name.length) / 2)) (width - 2)
    let g5 := (mapIdx (fun i c => ((i : Int), c)) paddedName.data).foldl
      (fun g p => safeWrite g (startY + 1) (startX + 1 + p.1) p.2) g4
    let g6 := safeWrite g5 (startY + 1) (startX + (width : Int) - 1) '│'
    let g7 := safeWrite g6 (startY + 2) startX '└'
    let g8 := (intRange 1 ((width : Int) - 1)).foldl
      (fun g i => safeWrite g (startY + 2) (startX + i) '─') g7
    safeWrite g8 (startY + 2) (startX + (width : Int) - 1) '┘'

/-! ### Example models used by the witness theorems -/

/-- Example model for the C4 witness: one view containing a single
placed node `"node-a"`. -/
def exModelC4 : Model :=
  { title := "T"
    items := [{ id := "node-a", name := "A" }]
    views := [{ id := "view-main", name := "Main View"
                items := [{ id := "node-a", tile := { x := 0, y := 0 } }]
                connectors := some [], rectangles := some [], textBoxes := some [] }]
    icons := []
    colors := [DEFAULT_COLOR] }

/-- Example connector for the C10 witness. -/
def exConnC10 : Connector :=
  { id := "conn-1"
    anchors := [
      { id := "anchor-1", ref := { item := some "node-a", anchor := some "center" } },
      { id := "anchor-2", ref := { item := some "node-a", anchor := some "center" } }] }

/-- Example model for the C10 witness: a primary view with one placed
node and one connector. -/
def exModelC10 : Model :=
  { title := "T"
    items := [{ id := "node-a", name := "A" }]
    views := [{ id := "view-main", name := "Main View"
                items := [{ id := "node-a", tile := { x := 2, y := 3 } }]
                connectors := some [exConnC10]
                rectangles := some [], textBoxes := some [] }]
    icons := []
    colors := [DEFAULT_COLOR] }

/-- Example model for the C8 theorems: one view `"view-main"` with no
items. -/
def exModelC8 : Model :=
  { title := "T"
    items := []
    views := [{ id := "view-main", name := "Main View"
                items := [], connectors := some []
                rectangles := some [], textBoxes := some [] }]
    icons := []
    colors := [DEFAULT_COLOR] }

/-- Example uuid generator for witnesses of converter theorems. -/
def uuidEx : Nat → Nat → Nat → String := fun a b c =>
  "uuid-" ++ toString a ++ "-" ++ toString b ++ "-" ++ toString c

/-- Example connector for the C9 witness: its target endpoint
references the dangling `"ghost"` placement. -/
def exConnC9 : Connector :=
  { id := "conn-1"
    anchors := [
      { id := "a1", ref := { item := some "node-a", anchor := some "center" } },
      { id := "a2", ref := { item := some "ghost", anchor := some "center" } }] }

/-- Example model for the C9 witness: the only ViewItem (`"ghost"`)
has no matching ModelItem, and the only connector targets it. -/
def exModelC9 : Model :=
  { title := "T"
    items := [{ id := "node-a", name := "A" }]
    views := [{ id := "view-main", name := "Main View"
                items := [{ id := "ghost", tile := { x := 7, y := 8 } }]
                connectors := some [exConnC9]
                rectangles := some [], textBoxes := some [] }]
    icons := []
    colors := [DEFAULT_COLOR] }

/-- Example connector living in the second view for the C3 witness. -/
def exConnC3other : Connector :=
  { id := "conn-other"
    anchors := [
      { id := "oa1", ref := { item := some "node-a", anchor := some "center" } },
      { id := "oa2", ref := { item := some "node-a", anchor := some "center" } }] }

/-- Main view of the C3 witness model: two placed nodes, no connector. -/
def exViewC3main : View :=
  { id := "view-main", name := "Main View"
    items := [{ id := "node-a", tile := { x := 0, y := 0 } },
              { id := "node-b", tile := { x := 1, y := 0 } }]
    connectors := some [], rectangles := some [], textBoxes := some [] }

/-- Second view of the C3 witness model: `"node-a"` placed and
self-connected there. -/
def exViewC3other : View :=
  { id := "view-other", name := "View 2"
    items := [{ id := "node-a", tile := { x := 0, y := 0 } }]
    connectors := some [exConnC3other], rectangles := some [], textBoxes := some [] }

/-- Base model of the C3 witness. -/
def exModelC3base : Model :=
  { title := "T"
    items := [{ id := "node-a", name := "A" }, { id := "node-b", name := "B" }]
    views := [exViewC3main, exViewC3other]
    icons := []
    colors := [DEFAULT_COLOR] }

/-- The C3 witness model: the base model after a successful
`addConnector` between the two nodes placed in the primary view. -/
def exModelC3 : Model :=
  addConnector exModelC3base "conn-x" "anchor-x1" "anchor-x2"
    { fromNodeId := "node-a", toNodeId := "node-b" }

/-- Example compact diagram for the C1 witness (the example payload of
the specification, section 8). -/
def exCompactC1 : CompactDiagram :=
  { t := "T"
    i := [("A", "server", ""), ("B", "api", "")]
    v := [{ positions := [(0, 0, 0), (1, 5, 0)], connections := [(0, 1)] }]
    meta := { f := "compact", v := "1.0" } }

/-! ### Theorems -/

theorem lookupLast_eq_none (l : List (String × Nat)) (key : String)
    (h : ∀ p ∈ l, p.1 ≠ key) : lookupLast l key = none := by
  induction l with
  | nil => rfl
  | cons p rest ih =>
    obtain ⟨k, v⟩ := p
    simp only [lookupLast]
    rw [ih (fun q hq => h q (List.mem_cons_of_mem _ hq))]
    have hne : key ≠ k := fun he => (h (k, v) (List.mem_cons_self _ _)) he.symm
    show (if key = k then some v else none) = none
    rw [if_neg hne]

theorem itemIndexMap_eq_none (items : List ModelItem) (s : String)
    (h : ∀ it ∈ items, it.id ≠ s) : itemIndexMap items s = none := by
  apply lookupLast_eq_none
  intro p hp
  obtain ⟨k, it, hit, hb⟩ := mem_mapIdxFrom (by simpa [mapIdx] using hp)
  subst hb
  exact h it hit

theorem encodeConn_none_of_unmapped (items : List ModelItem) (c : Connector)
    (a : ConnectorAnchor) (s : String)
    (hend : c.anchors.head? = some a ∨ c.anchors.getLast? = some a)
    (hitem : a.ref.item = some s)
    (hunmapped : ∀ it ∈ items, it.id ≠ s) :
    encodeConn items c = none := by
  have hmap : itemIndexMap items s = none := itemIndexMap_eq_none items s hunmapped
  unfold encodeConn
  by_cases hlen : c.anchors.length < 2
  · rw [if_pos hlen]
  · rw [if_neg hlen]
    cases hh : c.anchors.head? with
    | none => cases hl : c.anchors.getLast? <;> rfl
    | some fa =>
      cases hl : c.anchors.getLast? with
      | none => rfl
      | some ta =>
        show (match fa.ref.item, ta.ref.item with
          | some fromItemId, some toItemId =>
            if fromItemId = "" ∨ toItemId = "" then none
            else
              match itemIndexMap items fromItemId, itemIndexMap items toItemId with
              | some fromIndex, some toIndex => some ((fromIndex : Int), (toIndex : Int))
              | _, _ => none
          | _, _ => none) = none
        cases hfi : fa.ref.item with
        | none => cases hti : ta.ref.item <;> rfl
        | some fid =>
          cases hti : ta.ref.item with
          | none => rfl
          | some tid =>
            show (if fid = "" ∨ tid = "" then (none : Option (Int × Int))
              else
                match itemIndexMap items fid, itemIndexMap items tid with
                | some fromIndex, some toIndex => some ((fromIndex : Int), (toIndex : Int))
                | _, _ => none) = none
            by_cases hempty : fid = "" ∨ tid = ""
            · rw [if_pos hempty]
            · rw [if_neg hempty]
              rcases hend with hend | hend
              · rw [hend] at hh
                injection hh with hh
                subst hh
                rw [hitem] at hfi
                injection hfi with hfi
                subst hfi
                rw [hmap]
              · rw [hend] at hl
                injection hl with hl
                subst hl
                rw [hitem] at hti
                injection hti with hti
                subst hti
                rw [hmap]
                cases itemIndexMap items fid <;> rfl

/-- C4: for every addConnector call in which the resolved view lacks a
ViewItem for the from-endpoint or for the to-endpoint (or the resolved
view does not exist), addConnector returns a state whose model equals
the input model: no connector is added, nothing else is changed, and
(the embedded operation being total, mirroring the throw-free source
path) no error is raised. -/
theorem addConnector_silent_noop (m : Model) (connectorId a1 a2 : String)
    (params : AddConnectorParams) (hne : m.views ≠ [])
    (h : ∀ v ∈ m.views, v.id = resolveViewId m params.viewId →
      (∀ i ∈ v.items, i.id ≠ params.fromNodeId) ∨ (∀ i ∈ v.items, i.id ≠ params.toNodeId)) :
    addConnector m connectorId a1 a2 params = m := by
  simp only [addConnector]
  rw [updateFirst_of_forall_fix]
  intro v hv hp
  have hid : v.id = resolveViewId m params.viewId := by simpa using hp
  rcases h v hv hid with hfrom | hto
  · have hany : (v.items.any (fun i => i.id == params.fromNodeId)) = false := by
      rw [List.any_eq_false]
      intro i hi
      simp [hfrom i hi]
    simp [hany]
  · have hany : (v.items.any (fun i => i.id == params.toNodeId)) = false := by
      rw [List.any_eq_false]
      intro i hi
      simp [hto i hi]
    simp [hany]

/-- C4 witness: adding a connector whose target endpoint is not placed
in the resolved view leaves the model unchanged. -/
theorem addConnector_silent_noop_witness :
    addConnector exModelC4 "conn-1" "anchor-1" "anchor-2"
      { fromNodeId := "node-a", toNodeId := "node-b" } = exModelC4 :=
  addConnector_silent_noop exModelC4 "conn-1" "anchor-1" "anchor-2"
    { fromNodeId := "node-a", toNodeId := "node-b" } (by decide)
    (by decide)

/-- C10: for every diagram state and every viewId string that matches
no view in the model, the read operations getView, listNodes and
listConnectors resolve to the primary (first) view and return its
contents, rather than failing or returning an empty result. -/
theorem reads_fall_back_to_primary (m : Model) (vid : String)
    (hne : m.views ≠ []) (hmiss : ∀ v ∈ m.views, v.id ≠ vid) :
    getView m (some vid) = m.views.head? ∧
    (getView m (some vid)).isSome = true ∧
    listNodes m (some vid) = listNodes m none ∧
    listConnectors m (some vid) = listConnectors m none := by
  have hgv : getView m (some vid) = m.views.head? := by
    simp only [getView]
    by_cases hv : vid = ""
    · rw [if_pos hv]
    · rw [if_neg hv]
      have hfind : m.views.find? (fun v => v.id == vid) = none := by
        rw [List.find?_eq_none]
        intro v hv'
        simp [hmiss v hv']
      rw [hfind]
  have hhead : (m.views.head?).isSome = true := by
    cases hv : m.views with
    | nil => exact absurd hv hne
    | cons a as => rfl
  refine ⟨hgv, by rw [hgv]; exact hhead, ?_, ?_⟩
  · simp only [listNodes, hgv]
    rfl
  · simp only [listConnectors, hgv]
    rfl

/-- C10 witness: the reads with the unknown view id `"nope"` resolve to
the primary view. -/
theorem reads_fall_back_to_primary_witness :
    getView exModelC10 (some "nope") = exModelC10.views.head? ∧
    (getView exModelC10 (some "nope")).isSome = true ∧
    listNodes exModelC10 (some "nope") = listNodes exModelC10 none ∧
    listConnectors exModelC10 (some "nope") = listConnectors exModelC10 none :=
  reads_fall_back_to_primary exModelC10 "nope" (by decide) (by decide)

/-- C8 counterexample: the empty string is a viewId that matches no
view in the model, yet `addNode` with `viewId: ""` does fall back to
the primary view (the JavaScript `params.viewId || this.primaryView.id`
treats `""` as falsy) and adds a ViewItem there: the primary view's
item count grows from 0 to 1. -/
theorem addNode_empty_viewId_falls_back :
    (∀ v ∈ exModelC8.views, v.id ≠ "") ∧
    exModelC8.views.map (fun v => v.items.length) = [0] ∧
    (addNode exModelC8 "node-1" { name := "A", x := 1, y := 2, viewId := some "" }).views.map
      (fun v => v.items.length) = [1] := by
  decide

/-- C8 (amended): for every addNode call that supplies a *non-empty*
viewId matching no view in the model, the operation still appends a new
ModelItem to model.items but adds no ViewItem to any view (it does not
fall back to the primary view), so the new node appears in listNodes
with an undefined position. (The amendment excludes the empty string,
which is falsy in JavaScript and falls back to the primary view; the
freshness hypothesis on the generated node id reflects the `uuidv4()`
contract.) -/
theorem addNode_unknown_view (m : Model) (nodeId : String) (params : AddNodeParams)
    (vid : String) (hp : params.viewId = some vid) (hvid : vid ≠ "")
    (hmiss : ∀ v ∈ m.views, v.id ≠ vid) (hne : m.views ≠ [])
    (hfresh : ∀ v ∈ m.views, ∀ vi ∈ v.items, vi.id ≠ nodeId) :
    (addNode m nodeId params).items
      = m.items ++ [{ id := nodeId, name := params.name, icon := params.icon
                      description := params.description }] ∧
    (addNode m nodeId params).views = m.views ∧
    listNodes (addNode m nodeId params) (some vid)
      = (listNodes m (some vid)).map (fun l => l ++
          [{ id := nodeId, name := params.name, icon := params.icon
             description := params.description, position := none }]) := by
  have hrid : resolveViewId m params.viewId = vid := by
    simp [resolveViewId, hp, hvid]
  have hviews : (addNode m nodeId params).views = m.views := by
    simp only [addNode, hrid]
    apply updateFirst_of_forall_not
    intro v hv
    simp [hmiss v hv]
  have hitems : (addNode m nodeId params).items
      = m.items ++ [{ id := nodeId, name := params.name, icon := params.icon
                      description := params.description }] := by
    simp [addNode]
  refine ⟨hitems, hviews, ?_⟩
  obtain ⟨v0, vs, hv0⟩ : ∃ v0 vs, m.views = v0 :: vs := by
    cases hv : m.views with
    | nil => exact absurd hv hne
    | cons a as => exact ⟨a, as, rfl⟩
  have hv0mem : v0 ∈ m.views := by rw [hv0]; exact List.mem_cons_self v0 vs
  have hfind0 : m.views.find? (fun v => v.id == vid) = none := by
    rw [List.find?_eq_none]
    intro v hv'
    simp [hmiss v hv']
  have hgv : getView m (some vid) = some v0 := by
    simp only [getView, if_neg hvid]
    rw [hfind0, hv0]
    rfl
  have hgv' : getView (addNode m nodeId params) (some vid) = some v0 := by
    simp only [getView, if_neg hvid, hviews]
    rw [hfind0, hv0]
    rfl
  simp only [listNodes, hgv, hgv', Option.map_some']
  rw [hitems, List.map_append]
  have hfind : v0.items.find? (fun vi => vi.id == nodeId) = none := by
    rw [List.find?_eq_none]
    intro vi hvi
    simp [hfresh v0 hv0mem vi hvi]
  simp [hfind]

/-- C8 witness: adding a node with the non-empty unknown viewId
`"ghost-view"` appends the ModelItem, changes no view, and lists the
node without a position. -/
theorem addNode_unknown_view_witness :
    (addNode exModelC8 "node-1" { name := "A", x := 1, y := 2, viewId := some "ghost-view" }).items
      = exModelC8.items ++ [{ id := "node-1", name := "A", icon := none, description := none }] ∧
    (addNode exModelC8 "node-1" { name := "A", x := 1, y := 2, viewId := some "ghost-view" }).views
      = exModelC8.views ∧
    listNodes (addNode exModelC8 "node-1" { name := "A", x := 1, y := 2, viewId := some "ghost-view" })
        (some "ghost-view")
      = (listNodes exModelC8 (some "ghost-view")).map (fun l => l ++
          [{ id := "node-1", name := "A", icon := none, description := none, position := none }]) :=
  addNode_unknown_view exModelC8 "node-1"
    { name := "A", x := 1, y := 2, viewId := some "ghost-view" } "ghost-view"
    rfl (by decide) (by decide) (by decide) (by decide)

/-- C9: for every Model in which some view contains a ViewItem whose
id does not occur in model.items, toCompact encodes that ViewItem as a
positions triple with item index 0 (falling back to 0 for the unmapped
id) rather than dropping it, while every connector with an unmapped
endpoint id in the same Model is dropped from the connections list. -/
theorem toCompact_unmapped_fallback (m : Model) (k j : Nat)
    (hk : k < m.views.length) (hj : j < (m.views[k]).items.length)
    (hunmapped : ∀ it ∈ m.items, it.id ≠ ((m.views[k]).items[j]).id) :
    ∃ cv : CompactView, (toCompact m).v[k]? = some cv ∧
      cv.positions.length = (m.views[k]).items.length ∧
      cv.positions[j]? = some (0, ((m.views[k]).items[j]).tile.x,
        ((m.views[k]).items[j]).tile.y) ∧
      cv.connections = ((m.views[k]).connectors.getD []).filterMap (encodeConn m.items) ∧
      ∀ (c : Connector) (a : ConnectorAnchor) (s : String),
        (c.anchors.head? = some a ∨ c.anchors.getLast? = some a) →
        a.ref.item = some s → (∀ it ∈ m.items, it.id ≠ s) →
        encodeConn m.items c = none := by
  have hmap0 : itemIndexMap m.items ((m.views[k]).items[j]).id = none :=
    itemIndexMap_eq_none m.items _ hunmapped
  simp only [toCompact]
  split
  next hzero =>
    rw [List.length_map] at hzero
    exact absurd hk (by omega)
  next hzero =>
    refine ⟨{ positions := (m.views[k]).items.map (fun viewItem => (((itemIndexMap m.items viewItem.id).getD 0 : Int), viewItem.tile.x, viewItem.tile.y))
              connections := ((m.views[k]).connectors.getD []).filterMap (encodeConn m.items) },
      ?_, ?_, ?_, ?_, ?_⟩
    · rw [List.getElem?_map, List.getElem?_eq_getElem hk, Option.map_some']
      rfl
    · simp
    · rw [List.getElem?_map, List.getElem?_eq_getElem hj, Option.map_some', hmap0]
      simp
    · rfl
    · intro c a s h1 h2 h3
      exact encodeConn_none_of_unmapped m.items c a s h1 h2 h3

/-- C9 witness: in `exModelC9` the dangling placement `"ghost"` is
encoded as the triple `(0, 7, 8)` while the connector targeting it is
dropped. -/
theorem toCompact_unmapped_fallback_witness :
    ∃ cv : CompactView, (toCompact exModelC9).v[0]? = some cv ∧
      cv.positions.length = 1 ∧
      cv.positions[0]? = some (0, 7, 8) ∧
      cv.connections = [] ∧
      ∀ (c : Connector) (a : ConnectorAnchor) (s : String),
        (c.anchors.head? = some a ∨ c.anchors.getLast? = some a) →
        a.ref.item = some s → (∀ it ∈ exModelC9.items, it.id ≠ s) →
        encodeConn exModelC9.items c = none :=
  toCompact_unmapped_fallback exModelC9 0 0 (by decide) (by decide) (by decide)

/-- C5: for every full-format Model m, toFull(toCompact(m)) never
throws (the embedded composition is a total function, mirroring the
throw-free source path) and yields a Model whose items array has the
same length as m.items, and in which every view's rectangles and
textBoxes are empty arrays. -/
theorem toFull_toCompact_shape (uuid : Nat → Nat → Nat → String) (m : Model) :
    (toFull uuid (toCompact m)).items.length = m.items.length ∧
    ∀ v ∈ (toFull uuid (toCompact m)).views,
      v.rectangles = some [] ∧ v.textBoxes = some [] := by
  constructor
  · simp [toFull, toCompact, mapIdx, mapIdxFrom_length]
  · intro v hv
    simp only [toFull, mapIdx] at hv
    obtain ⟨k, a, ha, hb⟩ := mem_mapIdxFrom hv
    subst hb
    exact ⟨rfl, rfl⟩

/-- C5 witness: the shape law at a concrete model. -/
theorem toFull_toCompact_shape_witness :
    (toFull uuidEx (toCompact exModelC10)).items.length = exModelC10.items.length ∧
    ∀ v ∈ (toFull uuidEx (toCompact exModelC10)).views,
      v.rectangles = some [] ∧ v.textBoxes = some [] :=
  toFull_toCompact_shape uuidEx exModelC10

theorem filter_idem (p : α → Bool) (l : List α) :
    (l.filter p).filter p = l.filter p :=
  List.filter_eq_self.mpr (fun a ha => (List.mem_filter.mp ha).2)

theorem eraseFirst_countP_le_one (p : α → Bool) (l : List α)
    (h : l.countP p ≤ 1) : ∀ a ∈ eraseFirst p l, p a = false := by
  intro a ha
  rw [eraseFirst_eq_filter p l h] at ha
  have := (List.mem_filter.mp ha).2
  simpa using this

theorem eraseFirst_eraseFirst (p : α → Bool) (l : List α) (h : l.countP p ≤ 1) :
    eraseFirst p (eraseFirst p l) = eraseFirst p l :=
  eraseFirst_of_forall_not p _ (eraseFirst_countP_le_one p l h)

theorem updateFirst_head_map (p : α → Bool) (f : α → α) (l : List α) (g : α → β)
    (hpres : ∀ a, g (f a) = g a) :
    ((updateFirst p f l).head?).map g = (l.head?).map g := by
  cases l with
  | nil => rfl
  | cons a as =>
    by_cases hp : p a <;> simp [updateFirst, hp, hpres]

theorem removeNodeFromView_idem (nodeId : String) (v : View)
    (hcount : v.items.countP (fun i => i.id == nodeId) ≤ 1) :
    removeNodeFromView nodeId (removeNodeFromView nodeId v)
      = removeNodeFromView nodeId v := by
  unfold removeNodeFromView
  have h1 : eraseFirst (fun i => i.id == nodeId)
      (eraseFirst (fun i => i.id == nodeId) v.items)
      = eraseFirst (fun i => i.id == nodeId) v.items :=
    eraseFirst_eraseFirst _ _ hcount
  cases hvc : v.connectors with
  | none => simp [h1]
  | some cs => simp [h1, filter_idem]

/-- C6: removeNode is idempotent: applying removeNode(n) to the result
of removeNode(n) yields a model equal to the result of the single
removal; the second call, on an id no longer present, is a no-op and
(the operation being total, as in the throw-free source) raises no
error. The hypotheses are the data-model invariants: identifiers occur
at most once in model.items and at most once per view. -/
theorem removeNode_idempotent (m : Model) (nodeId : String) (vid : Option String)
    (hne : m.views ≠ [])
    (hitems : m.items.countP (fun i => i.id == nodeId) ≤ 1)
    (hviewitems : ∀ v ∈ m.views, v.items.countP (fun i => i.id == nodeId) ≤ 1) :
    removeNode (removeNode m nodeId vid) nodeId vid = removeNode m nodeId vid := by
  have hrid : resolveViewId (removeNode m nodeId vid) vid = resolveViewId m vid := by
    have hprim : primaryViewId (removeNode m nodeId vid) = primaryViewId m := by
      simp only [removeNode, primaryViewId]
      rw [updateFirst_head_map]
      intro a
      rfl
    cases vid with
    | none => simp [resolveViewId, hprim]
    | some s =>
      by_cases hs : s = ""
      · subst hs
        simp [resolveViewId, hprim]
      · simp [resolveViewId, hs, hprim]
  have hitems2 : eraseFirst (fun i => i.id == nodeId) (removeNode m nodeId vid).items
      = (removeNode m nodeId vid).items := by
    have hstep : (removeNode m nodeId vid).items
        = eraseFirst (fun i => i.id == nodeId) m.items := rfl
    rw [hstep]
    exact eraseFirst_eraseFirst _ _ hitems
  have hviews2 : updateFirst (fun v => v.id == resolveViewId (removeNode m nodeId vid) vid)
      (removeNodeFromView nodeId) (removeNode m nodeId vid).views
      = (removeNode m nodeId vid).views := by
    rw [hrid]
    have hstep : (removeNode m nodeId vid).views
        = updateFirst (fun v => v.id == resolveViewId m vid)
            (removeNodeFromView nodeId) m.views := rfl
    rw [hstep]
    rw [updateFirst_updateFirst]
    · intro a
      rfl
    · intro a ha hpa
      exact removeNodeFromView_idem nodeId a (hviewitems a ha)
  have hassemble : removeNode (removeNode m nodeId vid) nodeId vid
      = { removeNode m nodeId vid with
            items := eraseFirst (fun i => i.id == nodeId) (removeNode m nodeId vid).items
            views := updateFirst
              (fun v => v.id == resolveViewId (removeNode m nodeId vid) vid)
              (removeNodeFromView nodeId) (removeNode m nodeId vid).views } := rfl
  rw [hassemble, hitems2, hviews2]

/-- C6 witness: removing `"node-a"` twice from a model where it is
placed and connected equals removing it once. -/
theorem removeNode_idempotent_witness :
    removeNode (removeNode exModelC10 "node-a" none) "node-a" none
      = removeNode exModelC10 "node-a" none :=
  removeNode_idempotent exModelC10 "node-a" none (by decide) (by decide) (by decide)

/-- C3: removeNode removes the ModelItem with that id if present,
removes the ViewItem with that id from the resolved view if present,
and removes from that view every connector having any anchor with
ref.item equal to nodeId; connectors in other views are not pruned
(every view other than the resolved one is kept unchanged, so in
particular, after addConnector between two nodes placed in a view
succeeds, calling removeNode on either endpoint leaves that view with
zero connectors referencing the removed node — the third and fifth
conjuncts applied to the post-addConnector state). The countP
hypotheses are the data-model uniqueness invariants. -/
theorem removeNode_spec (m : Model) (nodeId : String) (vid : Option String)
    (hne : m.views ≠ [])
    (hitems : m.items.countP (fun i => i.id == nodeId) ≤ 1)
    (hviewitems : ∀ v ∈ m.views, v.items.countP (fun i => i.id == nodeId) ≤ 1) :
    (removeNode m nodeId vid).items = m.items.filter (fun i => !(i.id == nodeId)) ∧
    (removeNode m nodeId vid).views.length = m.views.length ∧
    (∀ v ∈ m.views, v.id ≠ resolveViewId m vid → v ∈ (removeNode m nodeId vid).views) ∧
    ((removeNode m nodeId vid).views.find? (fun v => v.id == resolveViewId m vid)
      = (m.views.find? (fun v => v.id == resolveViewId m vid)).map
          (fun view =>
            { view with
                items := view.items.filter (fun i => !(i.id == nodeId))
                connectors := view.connectors.map (fun cs => cs.filter (fun connector =>
                  !(connector.anchors.any (fun anchor =>
                    anchor.ref.item == some nodeId)))) })) ∧
    (∀ view cs,
      (removeNode m nodeId vid).views.find? (fun v => v.id == resolveViewId m vid)
        = some view →
      view.connectors = some cs →
      ∀ c ∈ cs, ∀ a ∈ c.anchors, a.ref.item ≠ some nodeId) := by
  have hviewsStep : (removeNode m nodeId vid).views
      = updateFirst (fun v => v.id == resolveViewId m vid)
          (removeNodeFromView nodeId) m.views := rfl
  have h1 : (removeNode m nodeId vid).items
      = m.items.filter (fun i => !(i.id == nodeId)) := by
    have hstep : (removeNode m nodeId vid).items
        = eraseFirst (fun i => i.id == nodeId) m.items := rfl
    rw [hstep]
    exact eraseFirst_eq_filter _ _ hitems
  have h2 : (removeNode m nodeId vid).views.length = m.views.length := by
    rw [hviewsStep]
    exact updateFirst_length _ _ _
  have h3 : ∀ v ∈ m.views, v.id ≠ resolveViewId m vid →
      v ∈ (removeNode m nodeId vid).views := by
    intro v hv hvne
    rw [hviewsStep]
    exact mem_updateFirst_of_not _ _ _ v hv (by simp [hvne])
  have h4 : (removeNode m nodeId vid).views.find? (fun v => v.id == resolveViewId m vid)
      = (m.views.find? (fun v => v.id == resolveViewId m vid)).map
          (fun view =>
            { view with
                items := view.items.filter (fun i => !(i.id == nodeId))
                connectors := view.connectors.map (fun cs => cs.filter (fun connector =>
                  !(connector.anchors.any (fun anchor =>
                    anchor.ref.item == some nodeId)))) }) := by
    rw [hviewsStep]
    rw [find?_updateFirst (fun v => v.id == resolveViewId m vid)
      (removeNodeFromView nodeId) m.views (fun a => rfl)]
    cases hf : m.views.find? (fun v => v.id == resolveViewId m vid) with
    | none => rfl
    | some view =>
      have hvmem : view ∈ m.views := List.mem_of_find?_eq_some hf
      simp only [Option.map_some']
      rw [show removeNodeFromView nodeId view
        = { view with
              items := eraseFirst (fun i => i.id == nodeId) view.items
              connectors := view.connectors.map (fun cs => cs.filter (fun connector =>
                !(connector.anchors.any (fun anchor =>
                  anchor.ref.item == some nodeId)))) } from rfl]
      rw [eraseFirst_eq_filter _ _ (hviewitems view hvmem)]
  refine ⟨h1, h2, h3, h4, ?_⟩
  intro view cs hfind hcs c hc a ha hcontra
  rw [h4] at hfind
  cases hf : m.views.find? (fun v => v.id == resolveViewId m vid) with
  | none =>
    rw [hf] at hfind
    cases hfind
  | some view0 =>
    rw [hf, Option.map_some'] at hfind
    injection hfind with hfind
    subst hfind
    have hcs' : view0.connectors.map (fun cs => cs.filter (fun connector =>
        !(connector.anchors.any (fun anchor =>
          anchor.ref.item == some nodeId)))) = some cs := hcs
    cases hvc : view0.connectors with
    | none =>
      rw [hvc] at hcs'
      cases hcs'
    | some cs0 =>
      rw [hvc, Option.map_some'] at hcs'
      injection hcs' with hcs'
      subst hcs'
      have hc2 := (List.mem_filter.mp hc).2
      rw [Bool.not_eq_eq_eq_not, Bool.not_true, List.any_eq_false] at hc2
      exact absurd (by simp [hcontra] : (a.ref.item == some nodeId) = true)
        (by simpa using hc2 a ha)

/-- C3 witness: removing `"node-a"` (an endpoint of the connector just
added by `addConnector`) from the primary view of `exModelC3`. -/
theorem removeNode_spec_witness :
    (removeNode exModelC3 "node-a" none).items
      = exModelC3.items.filter (fun i => !(i.id == "node-a")) ∧
    (removeNode exModelC3 "node-a" none).views.length = exModelC3.views.length ∧
    (∀ v ∈ exModelC3.views, v.id ≠ resolveViewId exModelC3 none →
      v ∈ (removeNode exModelC3 "node-a" none).views) ∧
    ((removeNode exModelC3 "node-a" none).views.find?
        (fun v => v.id == resolveViewId exModelC3 none)
      = (exModelC3.views.find? (fun v => v.id == resolveViewId exModelC3 none)).map
          (fun view =>
            { view with
                items := view.items.filter (fun i => !(i.id == "node-a"))
                connectors := view.connectors.map (fun cs => cs.filter (fun connector =>
                  !(connector.anchors.any (fun anchor =>
                    anchor.ref.item == some "node-a")))) })) ∧
    (∀ view cs,
      (removeNode exModelC3 "node-a" none).views.find?
          (fun v => v.id == resolveViewId exModelC3 none)
        = some view →
      view.connectors = some cs →
      ∀ c ∈ cs, ∀ a ∈ c.anchors, a.ref.item ≠ some "node-a") :=
  removeNode_spec exModelC3 "node-a" none (by decide) (by decide) (by decide)

/-- C7 counterexample: the connector pass (`drawLine`) leaves the
corner glyph `┐` at cell (0,1); the node-box pass (`drawNodeBox`,
which would draw its top border `─` through that cell) cannot
overwrite it — the cell still holds `┐` afterwards. So the node-box
pass can NOT overwrite every line-drawing glyph left by the connector
pass: corner glyphs are protected. -/
theorem drawNodeBox_cannot_overwrite_corner :
    (((drawLine [[' ', ' ', ' '], [' ', ' ', ' '], [' ', ' ', ' ']] 0 0 2 2 false).getD
        0 []).getD 1 ' ' = '┐') ∧
    (((drawNodeBox (drawLine [[' ', ' ', ' '], [' ', ' ', ' '], [' ', ' ', ' ']] 0 0 2 2 false)
        1 1 "A" "").getD 0 []).getD 1 ' ' = '┐') := by
  decide

/-- C7 (amended): every character-grid write goes through safeWrite and
preserves non-line content: a grid cell whose current character is
anything other than a blank or one of the two plain line glyphs `─`
and `│` is never overwritten by any later write; consequently the
node-box drawing pass (which runs after the connector pass) can
overwrite only blanks and the plain `─`/`│` line glyphs — corner and
arrow glyphs left by the connector pass are protected like any other
non-blank content, and an in-bounds write onto a blank or plain line
glyph does take effect. -/
theorem safeWrite_discipline :
    (∀ (grid : List (List Char)) (y x : Int) (ch : Char) (j i : Nat),
      ((grid.getD j []).getD i ' ') ≠ ' ' →
      ((grid.getD j []).getD i ' ') ≠ '─' →
      ((grid.getD j []).getD i ' ') ≠ '│' →
      ((safeWrite grid y x ch).getD j []).getD i ' ' = (grid.getD j []).getD i ' ') ∧
    (∀ (grid : List (List Char)) (y x : Int) (ch : Char),
      0 ≤ y → y < (grid.length : Int) → 0 ≤ x →
      x < ((grid.getD y.toNat []).length : Int) →
      ((grid.getD y.toNat []).getD x.toNat ' ' = ' ' ∨
        (grid.getD y.toNat []).getD x.toNat ' ' = '─' ∨
        (grid.getD y.toNat []).getD x.toNat ' ' = '│') →
      ((safeWrite grid y x ch).getD y.toNat []).getD x.toNat ' ' = ch) := by
  constructor
  · intro grid y x ch j i hblank hhoriz hvert
    unfold safeWrite
    by_cases hbounds : 0 ≤ y ∧ y < (grid.length : Int) ∧ 0 ≤ x ∧
        x < ((grid.getD y.toNat []).length : Int)
    · rw [if_pos hbounds]
      by_cases hcur : (grid.getD y.toNat []).getD x.toNat ' ' = ' ' ∨
          (grid.getD y.toNat []).getD x.toNat ' ' = '─' ∨
          (grid.getD y.toNat []).getD x.toNat ' ' = '│'
      · rw [if_pos hcur]
        by_cases hj : j = y.toNat
        · subst hj
          by_cases hi : i = x.toNat
          · subst hi
            exact absurd hcur (by tauto)
          · have hrow : (grid.set y.toNat ((grid.getD y.toNat []).set x.toNat ch)).getD
                y.toNat [] = (grid.getD y.toNat []).set x.toNat ch := by
              have hjlt : y.toNat < grid.length := by omega
              rw [List.getD_eq_getElem?_getD, List.getElem?_set_self]
              · simp [List.getD_eq_getElem?_getD, List.getElem?_eq_getElem hjlt]
              · exact hjlt
            rw [hrow, List.getD_eq_getElem?_getD, List.getElem?_set_ne (by omega)]
            simp [List.getD_eq_getElem?_getD]
        · have hrow : (grid.set y.toNat ((grid.getD y.toNat []).set x.toNat ch)).getD j []
              = grid.getD j [] := by
            rw [List.getD_eq_getElem?_getD, List.getElem?_set_ne (by omega),
              List.getD_eq_getElem?_getD]
          rw [hrow]
      · rw [if_neg hcur]
    · rw [if_neg hbounds]
  · intro grid y x ch hy0 hylen hx0 hxlen hcur
    unfold safeWrite
    rw [if_pos ⟨hy0, hylen, hx0, hxlen⟩, if_pos hcur]
    have hjlt : y.toNat < grid.length := by omega
    have hilt : x.toNat < (grid.getD y.toNat []).length := by omega
    have hrow : (grid.set y.toNat ((grid.getD y.toNat []).set x.toNat ch)).getD y.toNat []
        = (grid.getD y.toNat []).set x.toNat ch := by
      rw [List.getD_eq_getElem?_getD, List.getElem?_set_self]
      · simp [List.getD_eq_getElem?_getD, List.getElem?_eq_getElem hjlt]
      · exact hjlt
    rw [hrow, List.getD_eq_getElem?_getD, List.getElem?_set_self]
    · simp
    · exact hilt

/-- C7 witness: a letter cell survives a write attempt, and an
in-bounds plain line glyph is overwritten. -/
theorem safeWrite_discipline_witness :
    ((safeWrite [['A']] 0 0 '─').getD 0 []).getD 0 ' ' = 'A' ∧
    ((safeWrite [['─']] 0 0 'X').getD 0 []).getD 0 ' ' = 'X' :=
  ⟨safeWrite_discipline.1 [['A']] 0 0 '─' 0 0 (by decide) (by decide) (by decide),
    safeWrite_discipline.2 [['─']] 0 0 'X' (by decide) (by decide) (by decide)
      (by decide) (by decide)⟩

theorem string_append_cancel {s a b : String} (h : s ++ a = s ++ b) : a = b := by
  have hd : s.data ++ a.data = s.data ++ b.data := congrArg String.data h
  have hdata := List.append_cancel_left hd
  cases a
  cases b
  exact congrArg String.mk hdata

theorem itemIdFor_nat_inj {j k : Nat}
    (h : itemIdFor (j : Int) = itemIdFor (k : Int)) : j = k := by
  unfold itemIdFor at h
  have h2 : toString ((j : Nat) : Int) = toString ((k : Nat) : Int) :=
    string_append_cancel h
  have h3 : Nat.repr j = Nat.repr k := h2
  exact natRepr_inj h3

theorem itemIdFor_ne_empty (idx : Int) : itemIdFor idx ≠ "" := by
  unfold itemIdFor
  intro h
  have hd : "item-".data ++ (toString idx).data = [] := congrArg String.data h
  simp at hd

theorem lookupLast_idFor_none {α : Type} (l : List α) (s k : Nat) (hk : k < s) :
    lookupLast (mapIdxFrom (fun idx _ => (itemIdFor (idx : Int), idx)) s l)
      (itemIdFor (k : Int)) = none := by
  induction l generalizing s with
  | nil => rfl
  | cons a as ih =>
    simp only [mapIdxFrom, lookupLast]
    rw [ih (s + 1) (by omega)]
    have hne : itemIdFor (k : Int) ≠ itemIdFor (s : Int) := fun he => by
      have := itemIdFor_nat_inj he
      omega
    show (if itemIdFor (k : Int) = itemIdFor (s : Int) then some s else none) = none
    rw [if_neg hne]

theorem lookupLast_idFor_some {α : Type} (l : List α) (s k : Nat)
    (hks : s ≤ k) (hk : k < s + l.length) :
    lookupLast (mapIdxFrom (fun idx _ => (itemIdFor (idx : Int), idx)) s l)
      (itemIdFor (k : Int)) = some k := by
  induction l generalizing s with
  | nil => simp at hk; omega
  | cons a as ih =>
    simp only [mapIdxFrom, lookupLast]
    by_cases hks1 : s + 1 ≤ k
    · rw [ih (s + 1) hks1 (by simp at hk ⊢; omega)]
    · have hkeq : k = s := by omega
      subst hkeq
      rw [lookupLast_idFor_none as (k + 1) k (by omega)]
      show (if itemIdFor (k : Int) = itemIdFor (k : Int) then some k else none) = some k
      rw [if_pos rfl]

theorem mapIdxFrom_map (f : Nat → α → β) (g : β → γ) (s : Nat) (l : List α) :
    (mapIdxFrom f s l).map g = mapIdxFrom (fun k a => g (f k a)) s l := by
  induction l generalizing s with
  | nil => rfl
  | cons a as ih => simp [mapIdxFrom, ih]

theorem mapIdxFrom_id_of (f : Nat → α → α) (s : Nat) (l : List α)
    (h : ∀ k a, a ∈ l → f k a = a) : mapIdxFrom f s l = l := by
  induction l generalizing s with
  | nil => rfl
  | cons a as ih =>
    rw [mapIdxFrom, h s a (List.mem_cons_self a as),
      ih (s + 1) (fun k b hb => h k b (List.mem_cons_of_mem a hb))]

theorem filterMap_mapIdxFrom_some (f : Nat → α → β) (g : β → Option α) (s : Nat)
    (l : List α) (h : ∀ k a, a ∈ l → g (f k a) = some a) :
    (mapIdxFrom f s l).filterMap g = l := by
  induction l generalizing s with
  | nil => rfl
  | cons a as ih =>
    rw [mapIdxFrom, List.filterMap_cons_some (h s a (List.mem_cons_self a as)),
      ih (s + 1) (fun k b hb => h k b (List.mem_cons_of_mem a hb))]

theorem mem_mapIdxFrom_of_mem (f : Nat → α → β) (s : Nat) {l : List α} {a : α}
    (h : a ∈ l) : ∃ k, f k a ∈ mapIdxFrom f s l := by
  induction l generalizing s with
  | nil => cases h
  | cons b bs ih =>
    rcases List.mem_cons.mp h with rfl | hmem
    · exact ⟨s, List.mem_cons_self _ _⟩
    · obtain ⟨k, hk⟩ := ih (s + 1) hmem
      exact ⟨k, List.mem_cons_of_mem _ hk⟩

theorem validateCompact_item_bounds (c : CompactDiagram)
    (hvalid : validateCompactValid c = true) :
    ∀ item ∈ c.i, item.1.length ≤ 30 ∧ item.2.2.length ≤ 100 := by
  have herr : validateCompactErrors c = [] := of_decide_eq_true hvalid
  unfold validateCompactErrors at herr
  simp only [List.append_eq_nil] at herr
  have hflat := herr.1.2
  rw [List.flatten_eq_nil_iff] at hflat
  intro item hitem
  obtain ⟨k, hk⟩ := mem_mapIdxFrom_of_mem
    (fun index (it : String × String × String) =>
      (if it.1.length > 30
        then ["Item " ++ toString index ++ " name exceeds 30 characters"] else [])
      ++ (if it.2.2.length > 100
        then ["Item " ++ toString index ++ " description exceeds 100 characters"] else []))
    0 hitem
  have hchunk := hflat _ hk
  simp only [List.append_eq_nil] at hchunk
  constructor
  · by_contra hname
    rw [if_pos (by omega : item.1.length > 30)] at hchunk
    exact List.cons_ne_nil _ _ hchunk.1
  · by_contra hdesc
    rw [if_pos (by omega : item.2.2.length > 100)] at hchunk
    exact List.cons_ne_nil _ _ hchunk.2

theorem itemIndexMap_toFull (uuid : Nat → Nat → Nat → String) (c : CompactDiagram)
    (key : String) :
    itemIndexMap (toFull uuid c).items key
      = lookupLast (mapIdxFrom (fun idx _ => (itemIdFor (idx : Int), idx)) 0 c.i) key := by
  show lookupLast (mapIdxFrom (fun index item => (item.id, index)) 0
    (mapIdxFrom itemFromCompact 0 c.i)) key = _
  rw [mapIdxFrom_mapIdxFrom]
  rfl

theorem encodeConn_connectorFromConn (items : List ModelItem)
    (uuid : Nat → Nat → Nat → String) (vi ci : Nat) (conn : Int × Int) (a b : Nat)
    (hfa : itemIndexMap items (itemIdFor conn.1) = some a)
    (htb : itemIndexMap items (itemIdFor conn.2) = some b) :
    encodeConn items (connectorFromConn uuid vi ci conn)
      = some ((a : Int), (b : Int)) := by
  show (if itemIdFor conn.1 = "" ∨ itemIdFor conn.2 = "" then (none : Option (Int × Int))
    else
      match itemIndexMap items (itemIdFor conn.1), itemIndexMap items (itemIdFor conn.2) with
      | some fromIndex, some toIndex => some ((fromIndex : Int), (toIndex : Int))
      | _, _ => none) = some ((a : Int), (b : Int))
  rw [if_neg (by simp [itemIdFor_ne_empty])]
  rw [hfa, htb]

theorem toFull_items_roundtrip (uuid : Nat → Nat → Nat → String) (c : CompactDiagram)
    (hvalid : validateCompactValid c = true) :
    (toCompact (toFull uuid c)).i = c.i := by
  have hbounds := validateCompact_item_bounds c hvalid
  show (mapIdxFrom itemFromCompact 0 c.i).map compactItem = c.i
  rw [mapIdxFrom_map]
  apply mapIdxFrom_id_of
  intro k item hitem
  show (jsSlice0 item.1 30, (emptyToNone item.2.1).getD "",
    jsSlice0 ((emptyToNone item.2.2).getD "") 100) = item
  rw [emptyToNone_getD, emptyToNone_getD,
    jsSlice0_of_length_le _ _ (hbounds item hitem).1,
    jsSlice0_of_length_le _ _ (hbounds item hitem).2]

/-- C1 counterexample: the compact diagram with no items, one view,
and the single connection pair `[0, 0]` passes `validateCompact`
(which never range-checks connection indices), yet the round trip
`toCompact(toFull(c))` drops the out-of-range connection: the view's
pair-list becomes `[]` instead of `[(0, 0)]`. -/
theorem roundtrip_drops_out_of_range_connection :
    validateCompactValid
      { t := "T", i := [], v := [{ positions := [], connections := [(0, 0)] }],
        meta := { f := "compact", v := "1.0" } } = true ∧
    ((toCompact (toFull (fun a b c => "u")
      { t := "T", i := [], v := [{ positions := [], connections := [(0, 0)] }],
        meta := { f := "compact", v := "1.0" } })).v.map CompactView.connections
      = [[]]) := by
  decide

/-- C1 (amended): for every compact diagram c for which validateCompact
returns valid and in which every connection pair references item
indices inside the range of c.i (validateCompact does not check this;
an out-of-range or negative index makes the round trip drop that
connection), toCompact(toFull(c)) yields a compact diagram whose t
equals c.t.slice(0,40), whose i array has the same length as c.i and
is element-for-element equal to it, and whose per-view connections
pair-lists are positionally identical to c's (same [from,to] index
pairs in the same order in each view of c). -/
theorem toCompact_toFull_roundtrip (uuid : Nat → Nat → Nat → String)
    (c : CompactDiagram) (hvalid : validateCompactValid c = true)
    (hrange : ∀ cv ∈ c.v, ∀ conn ∈ cv.connections,
      0 ≤ conn.1 ∧ conn.1 < (c.i.length : Int) ∧
      0 ≤ conn.2 ∧ conn.2 < (c.i.length : Int)) :
    (toCompact (toFull uuid c)).t = jsSlice0 c.t 40 ∧
    (toCompact (toFull uuid c)).i.length = c.i.length ∧
    (toCompact (toFull uuid c)).i = c.i ∧
    ∀ k, k < c.v.length →
      ((toCompact (toFull uuid c)).v[k]?).map CompactView.connections
        = (c.v[k]?).map CompactView.connections := by
  have hi := toFull_items_roundtrip uuid c hvalid
  refine ⟨rfl, by rw [hi], hi, ?_⟩
  intro k hk
  have hlookup : ∀ n : Nat, n < c.i.length →
      itemIndexMap (toFull uuid c).items (itemIdFor (n : Int)) = some n := by
    intro n hn
    rw [itemIndexMap_toFull]
    exact lookupLast_idFor_some c.i 0 n (Nat.zero_le n) (by omega)
  simp only [toCompact]
  split
  next hzero =>
    rw [List.length_map,
      show (toFull uuid c).views.length = c.v.length
        from mapIdxFrom_length (viewFromCompact uuid) 0 c.v] at hzero
    exact absurd hk (by omega)
  next hzero =>
    rw [List.getElem?_map,
      show (toFull uuid c).views[k]? = ((c.v)[k]?).map (viewFromCompact uuid (0 + k))
        from mapIdxFrom_getElem? (viewFromCompact uuid) 0 c.v k,
      List.getElem?_eq_getElem hk]
    simp only [Option.map_some']
    have hconn : (compactViewFromView (toFull uuid c).items
        (viewFromCompact uuid (0 + k) (c.v[k]))).connections = (c.v[k]).connections := by
      show (mapIdxFrom (connectorFromConn uuid (0 + k)) 0 ((c.v[k]).connections)).filterMap
        (encodeConn (toFull uuid c).items) = (c.v[k]).connections
      apply filterMap_mapIdxFrom_some
      intro j p hp
      obtain ⟨hp1, hlt1, hp2, hlt2⟩ := hrange (c.v[k]) (List.getElem_mem hk) p hp
      obtain ⟨f, t⟩ := p
      obtain ⟨nf, hnf⟩ : ∃ nf : Nat, f = (nf : Int) :=
        ⟨f.toNat, (Int.toNat_of_nonneg hp1).symm⟩
      obtain ⟨nt, hnt⟩ : ∃ nt : Nat, t = (nt : Int) :=
        ⟨t.toNat, (Int.toNat_of_nonneg hp2).symm⟩
      subst hnf
      subst hnt
      have hnf' : nf < c.i.length := by simpa using hlt1
      have hnt' : nt < c.i.length := by simpa using hlt2
      rw [encodeConn_connectorFromConn (toFull uuid c).items uuid (0 + k) j
        ((nf : Int), (nt : Int)) nf nt (hlookup nf hnf') (hlookup nt hnt')]
    rw [hconn]

/-- C1 witness: the spec's own example compact payload (two items, one
view, one connection `[0, 1]`) round-trips with `t`, `i` and the
connection pair-list preserved. -/
theorem toCompact_toFull_roundtrip_witness :
    (toCompact (toFull uuidEx exCompactC1)).t = jsSlice0 exCompactC1.t 40 ∧
    (toCompact (toFull uuidEx exCompactC1)).i.length = exCompactC1.i.length ∧
    (toCompact (toFull uuidEx exCompactC1)).i = exCompactC1.i ∧
    ∀ k, k < exCompactC1.v.length →
      ((toCompact (toFull uuidEx exCompactC1)).v[k]?).map CompactView.connections
        = (exCompactC1.v[k]?).map CompactView.connections :=
  toCompact_toFull_roundtrip uuidEx exCompactC1 (by decide) (by decide)

end FossFlow
